import Mathlib

/-!
Shallow embedding of the core of google/weasel (a read-through caching proxy
serving GCS objects), faithful to the Go sources:

* `src/storage.go` — `Storage`, `OpenFile`, `Open`, `Stat`, `fetch`,
  `CacheKey`, `PurgeCache`/`purgeCache`;
* `src/unnamed/part_009` — `Object`, `RedirectCode`, `objectBuf.Read`,
  the historical `getObject`/`useCache` variant, `fetchObject`;
* Go standard library functions the code calls (`path.Join`, `path.Clean`,
  `filepath.Ext`, `strings.HasSuffix`, `strings.HasPrefix`, `strconv.Atoi`)
  are modelled from their documented stdlib semantics.

HTTP, memcache and goroutine effects are made explicit: backend responses are
an oracle `String → Option Response` (`none` = transport-level failure),
memcache is an association list, and the outcome of the concurrent speculative
stat (in particular its 5-second bounded wait) is a boolean
`statTimedOut` parameter supplied by the environment.
-/

namespace Weasel

/-! ## Go standard library string and path functions -/

/-- Go `strings.HasSuffix s suffix`. -/
def hasSuffix (s suffix : String) : Bool :=
  decide (suffix.toList <:+ s.toList)

/-- Go `strings.HasPrefix`: whether `p` starts `s`. -/
def goStartsWith (s p : String) : Bool :=
  decide (p.toList <+: s.toList)

/-- Go `path.Ext` / `filepath.Ext` (slash-separated): scans backwards from the
end of the path, stopping at the first `/`; returns the suffix starting at the
final dot of the last element, or the empty string if there is none.
`extAux` receives the reversed character list. -/
def extAux : List Char → List Char → String
  | [], _ => ""
  | c :: rest, acc =>
    if c = '/' then ""
    else if c = '.' then String.mk (c :: acc)
    else extAux rest (c :: acc)

/-- Go `filepath.Ext` (on a slash-separated path). -/
def goExt (s : String) : String := extAux s.toList.reverse []

/-- Splitting a character list at `/`, keeping empty segments — the segment
view of a path that Go `path.Clean` walks. -/
def splitSlashAux : List Char → List Char → List String
  | [], acc => [String.mk acc.reverse]
  | c :: rest, acc =>
    if c = '/' then String.mk acc.reverse :: splitSlashAux rest []
    else splitSlashAux rest (c :: acc)

/-- `strings.Split s "/"`. -/
def splitSlash (s : String) : List String := splitSlashAux s.toList []

/-- Segment processing of Go `path.Clean`: iterate the slash-separated
segments; drop empty segments and `.`; on `..` pop one element (when the top
is a real name), keep accumulating `..` when not rooted, or drop it at the
root. `stack` holds the output elements in reverse order. -/
def cleanSegs (rooted : Bool) : List String → List String → List String
  | stack, [] => stack
  | stack, seg :: rest =>
    if seg = "" ∨ seg = "." then cleanSegs rooted stack rest
    else if seg = ".." then
      match stack with
      | [] => if rooted then cleanSegs rooted [] rest else cleanSegs rooted [".."] rest
      | top :: tl =>
        if top = ".." then cleanSegs rooted (".." :: top :: tl) rest
        else cleanSegs rooted tl rest
    else cleanSegs rooted (seg :: stack) rest

/-- Go `path.Clean`. -/
def goClean (p : String) : String :=
  if p = "" then "."
  else
    let rooted := goStartsWith p "/"
    let segs := splitSlash p
    let stack := cleanSegs rooted [] segs
    let out := String.intercalate "/" stack.reverse
    let res := (if rooted then "/" else "") ++ out
    if res = "" then "." else res

/-- Go `path.Join` restricted to two elements, as the sources use it:
skip leading empty elements, join with `/` and `Clean` the result. -/
def goJoin (a b : String) : String :=
  if a = "" then (if b = "" then "" else goClean b)
  else goClean (a ++ "/" ++ b)

/-- Go `strconv.Atoi`: optional sign, one or more decimal digits, value must
fit a 64-bit `int`; every other input is a parse failure (`none`).
`strconv.Atoi` returns a non-nil error exactly in the `none` cases, and the
callers in the sources only test `err != nil`. -/
def goAtoi (s : String) : Option Int :=
  match s.toList with
  | [] => none
  | c :: rest =>
    let (neg, digits) :=
      if c = '-' then (true, rest)
      else if c = '+' then (false, rest)
      else (false, c :: rest)
    if digits = [] then none
    else if digits.all (fun d => '0' ≤ d ∧ d ≤ '9') then
      let v : Nat := digits.foldl (fun a d => a * 10 + (d.toNat - '0'.toNat)) 0
      let i : Int := if neg then -(v : Int) else (v : Int)
      if -(2 ^ 63) ≤ i ∧ i < 2 ^ 63 then some i else none
    else none

/-! ## Data model -/

/-- `FetchError` from `src/storage.go`: error code and message from a GCS
response. -/
structure FetchError where
  Msg : String
  Code : Nat
deriving DecidableEq, Repr

/-- The `error` values the storage layer produces: a typed `*FetchError`
(recognised by the sources with a type assertion) or any other error
(transport failures, i/o errors), carrying only its message. -/
inductive Err
  | fetch (e : FetchError)
  | other (msg : String)
deriving DecidableEq, Repr

/-- `Object` from `src/unnamed/part_009`: a single GCS object.  `Body` is the
byte sequence the object's body reader delivers (empty for stat results). -/
structure Object where
  Meta : List (String × String)
  Body : String
deriving DecidableEq, Repr

deriving instance DecidableEq for Except

/-- Custom metadata key `x-goog-meta-redirect` (`metaRedirect` in the source). -/
def metaRedirect : String := "x-goog-meta-redirect"

/-- Custom metadata key `x-goog-meta-redirect-code` (`metaRedirectCode`). -/
def metaRedirectCode : String := "x-goog-meta-redirect-code"

/-- Go map lookup `m[k]` with the zero-value `""` default. -/
def metaGet (m : List (String × String)) (k : String) : String :=
  match m.lookup k with
  | some v => v
  | none => ""

/-- `Object.Redirect` from `src/unnamed/part_009`: the object's redirect URL,
zero string otherwise. -/
def Object.Redirect (o : Object) : String :=
  metaGet o.Meta metaRedirect

/-- `Object.RedirectCode` from `src/unnamed/part_009`: `strconv.Atoi` of the
redirect-code metadata, defaulting to `http.StatusMovedPermanently` (301) on
any parse error. -/
def Object.RedirectCode (o : Object) : Int :=
  match goAtoi (metaGet o.Meta metaRedirectCode) with
  | some c => c
  | none => 301

/-! ## HTTP responses and header projection -/

/-- An HTTP response from the storage backend, as the code observes it:
status code, status line text (`res.Status`), response headers, the body
bytes the reader delivers, and whether reading the body fails midway
(`readErr`, relevant only where the code calls `ioutil.ReadAll` on a
success path). -/
structure Response where
  status : Nat
  statusText : String
  headers : List (String × String)
  body : String
  readErr : Option String
deriving DecidableEq, Repr

/-- ASCII lower-casing, for MIME header-name comparison. -/
def lowerStr (s : String) : String := String.mk (s.toList.map Char.toLower)

/-- Go `http.Header.Get k`: headers are matched up to MIME canonicalization,
i.e. ASCII-case-insensitively; missing headers give `""`. -/
def headerGet (h : List (String × String)) (k : String) : String :=
  match h.find? (fun p => lowerStr p.1 == lowerStr k) with
  | some p => p.2
  | none => ""

/-- The loop `for _, k := range keys { if v := res.Header.Get(k); v != "" {
m[k] = v } }` shared by `fetch`, `Stat` and `fetchObject`. -/
def projectHeaders (keys : List String) (h : List (String × String)) :
    List (String × String) :=
  keys.foldl (fun m k => if headerGet h k = "" then m else m ++ [(k, headerGet h k)]) []

/-- `objectHeaders` from `src/unnamed/part_009` (the object.go revision that
`src/storage.go` builds on): headers propagated from a GCS object. -/
def objectHeaders : List String :=
  ["cache-control", "content-disposition", "content-type", "etag",
   "last-modified", metaRedirect, metaRedirectCode]

/-- `fmt.Sprintf("%s: %s", res.Status, b)`, the message of a `FetchError`. -/
def fmtErrMsg (r : Response) : String := r.statusText ++ ": " ++ r.body

/-- `cacheItemMax` from `src/unnamed/part_009`: max size per memcache item,
in bytes (`1 << 20`). -/
def cacheItemMax : Nat := 1 <<< 20

/-! ## Storage configuration (`src/storage.go`) -/

/-- `CORS` from `src/storage.go`: cross-origin settings. -/
structure CORS where
  Origin : List String
  MaxAge : String
deriving DecidableEq, Repr

/-- `Storage` from `src/storage.go`: configuration for retrieving and serving
GCS objects. -/
structure Storage where
  Base : String
  Index : String
  CORS : CORS
deriving DecidableEq, Repr

/-- `DefaultStorage` from `src/storage.go`. -/
def DefaultStorage : Storage :=
  { Base := "https://storage.googleapis.com"
    Index := "index.html"
    CORS := { Origin := ["*"], MaxAge := "86400" } }

/-- `Storage.CacheKey` from `src/storage.go`:
`fmt.Sprintf("%s/%s", s.Base, path.Join(bucket, name))`. -/
def Storage.CacheKey (s : Storage) (bucket name : String) : String :=
  s.Base ++ "/" ++ goJoin bucket name

/-- The cache key under which `Open` (src/storage.go) reads and caches the
object for an in-flight request carrying headers `hdrs`: per the source,
`Open` passes only `bucket` and `name` to `CacheKey`, so the request's
headers do not enter the key derivation. -/
def requestCacheKey (s : Storage) (hdrs : List (String × String))
    (bucket name : String) : String :=
  s.CacheKey bucket name

/-! ## The environment: backend responses and memcache contents -/

/-- The world a single resolution runs against: the memcache contents and the
backend's answer for each GET / HEAD URL (`none` models a transport-level
error, i.e. `client.Do` returning a non-nil error). -/
structure World where
  cache : List (String × Object)
  getResp : String → Option Response
  headResp : String → Option Response

/-- `getCache` from `src/storage.go` as seen by its callers: a memcache hit
yields the stored object; a miss (or any other memcache failure, which the
code only logs) yields an error and the caller falls through to the
network. -/
def getCache (w : World) (key : String) : Option Object :=
  w.cache.lookup key

/-- The response-processing part of `fetch` (src/storage.go): status above
399 becomes a `FetchError` (taking precedence over body-read errors); other
statuses yield an `Object` with the whitelisted headers projected into
`Meta` and the body bytes the reader delivers. (The `objectBuf` wrapping of
the body, which caches it, is modelled separately by `objectBufRun`.) -/
def fetchResp (r : Response) : Except Err Object :=
  if r.status > 399 then .error (.fetch ⟨fmtErrMsg r, r.status⟩)
  else .ok ⟨projectHeaders objectHeaders r.headers, r.body⟩

/-- The response-processing part of `Stat` (src/storage.go): any status other
than `http.StatusOK` (200) becomes a `FetchError`; a 200 yields a body-less
`Object` with the whitelisted headers projected into `Meta`. -/
def statResp (r : Response) : Except Err Object :=
  if r.status ≠ 200 then .error (.fetch ⟨fmtErrMsg r, r.status⟩)
  else .ok ⟨projectHeaders objectHeaders r.headers, ""⟩

/-- `Storage.Open` from `src/storage.go`: cache-first read, falling back to
`fetch` of `{Base}/{path.Join(bucket, name)}` on a cache miss. -/
def Storage.Open (s : Storage) (w : World) (bucket name : String) :
    Except Err Object :=
  let key := s.CacheKey bucket name
  match getCache w key with
  | some o => .ok o
  | none =>
    let u := s.Base ++ "/" ++ goJoin bucket name
    match w.getResp u with
    | none => .error (.other "transport")
    | some r => fetchResp r

/-- `Storage.Stat` from `src/storage.go`: cache-first; on a miss, a HEAD
request to `{Base}/{path.Join(bucket, name)}` processed by `statResp`. -/
def Storage.Stat (s : Storage) (w : World) (bucket name : String) :
    Except Err Object :=
  match getCache w (s.CacheKey bucket name) with
  | some o => .ok o
  | none =>
    let u := s.Base ++ "/" ++ goJoin bucket name
    match w.headResp u with
    | none => .error (.other "transport")
    | some r => statResp r

/-! ## `OpenFile` (src/storage.go): the path resolver -/

/-- The normalization step of `OpenFile`: `if name == "" ||
strings.HasSuffix(name, "/") { name += s.Index }`. -/
def normalizeName (s : Storage) (name : String) : String :=
  if name = "" ∨ hasSuffix name "/" = true then name ++ s.Index else name

/-- `checkStat` from `OpenFile`: probe `path.Join(name, s.Index)` only when
`name` does not already end in the index name and has no file extension. -/
def checkStatOf (s : Storage) (name : String) : Bool :=
  !(hasSuffix name s.Index) && (goExt name == "")

/-- The early-return test of `OpenFile`: a `*FetchError` whose code is
neither 404 nor 403 is propagated immediately; other errors (including
non-`FetchError` ones, for which the type assertion fails) proceed to the
directory fallback. -/
def earlyReturn : Err → Bool
  | .fetch fe => fe.Code != 404 && fe.Code != 403
  | .other _ => false

/-- The redirect object `OpenFile` synthesizes when the stat result carries
no redirect of its own: empty body, `metaRedirect` set to
`path.Join("/", name) + "/"`. -/
def mkDirRedirect (name : String) : Object :=
  { Meta := [(metaRedirect, goJoin "/" name ++ "/")], Body := "" }

/-- The tail of `OpenFile` after the primary open failed (src/storage.go
lines 94–123): early-return of non-404/403 fetch errors, the bounded wait on
the speculative stat (`statTimedOut` says whether the 5-second timer fired
first), falling back to the original error on timeout or stat failure, and
synthesizing/chaining the redirect object on stat success. -/
def dirFallback (s : Storage) (w : World) (statTimedOut : Bool)
    (bucket name : String) (err : Err) : Except Err Object :=
  if earlyReturn err then .error err
  else if statTimedOut then .error err
  else
    match s.Stat w bucket (goJoin name s.Index) with
    | .error _ => .error err
    | .ok so => if so.Redirect != "" then .ok so else .ok (mkDirRedirect name)

/-- `Storage.OpenFile` from `src/storage.go`: treats the object name like a
file path; `statTimedOut` is the outcome of the race between the 5-second
timer and the speculative stat goroutine (consulted only when the fallback
is reached). -/
def Storage.OpenFile (s : Storage) (w : World) (statTimedOut : Bool)
    (bucket name0 : String) : Except Err Object :=
  let name := normalizeName s name0
  match s.Open w bucket name with
  | .ok o => .ok o
  | .error err =>
    if checkStatOf s name then dirFallback s w statTimedOut bucket name err
    else .error err

/-! ## Cache purge (`src/storage.go`) -/

/-- The errors `memcache.Delete` can produce. -/
inductive MemcacheError
  | cacheMiss
  | serverError (msg : String)
deriving DecidableEq, Repr

/-- `memcache.Delete` against an explicit store: removes the entry when
present; an absent key yields `ErrCacheMiss`. -/
def memcacheDelete (cache : List (String × Object)) (key : String) :
    List (String × Object) × Option MemcacheError :=
  if (cache.lookup key).isSome then
    (cache.filter (fun p => p.1 != key), none)
  else (cache, some .cacheMiss)

/-- `purgeCache` from `src/storage.go`: maps `memcache.ErrCacheMiss` from the
delete to success and returns every other delete error unchanged. -/
def purgeCache (deleteErr : Option MemcacheError) : Option MemcacheError :=
  if deleteErr = some .cacheMiss then none else deleteErr

/-- `Storage.PurgeCache` from `src/storage.go`: `purgeCache` at the computed
cache key, returning the updated store and the reported error. -/
def Storage.PurgeCache (s : Storage) (cache : List (String × Object))
    (bucket name : String) : List (String × Object) × Option MemcacheError :=
  let r := memcacheDelete cache (s.CacheKey bucket name)
  (r.1, purgeCache r.2)

/-! ## `objectBuf` (src/unnamed/part_009): the auto-caching body reader -/

/-- One `objectBuf.Read` step: the chunk `p[:n]` returned by the underlying
reader is appended to the buffer iff `n > 0` and the buffer is still below
`cacheItemMax`. -/
def bufWrite (buf chunk : List Char) : List Char :=
  if 0 < chunk.length ∧ buf.length < cacheItemMax then buf ++ chunk else buf

/-- The accumulated buffer once the underlying reader has delivered `chunks`
and reached `io.EOF`. -/
def objectBufRun (chunks : List (List Char)) : List Char :=
  chunks.foldl bufWrite []

/-- `objectBuf.Read` performs the `memcache.Gob.Set` at `io.EOF` iff the
accumulated buffer is strictly below `cacheItemMax`; the cached `Body` is
the buffer contents (`objectBufRun chunks`). -/
def objectBufCaches (chunks : List (List Char)) : Bool :=
  decide ((objectBufRun chunks).length < cacheItemMax)

/-! ## The `src/unnamed/part_009` revision: `useCache`, `getObject`,
`fetchObject` -/

/-- `gcsBase` from `src/unnamed/part_009`. -/
def gcsBase : String := "https://storage.googleapis.com"

/-- `objectHeaders` from the `src/unnamed/part_009` revision that carries
`useCache`/`getObject`. -/
def objectHeadersPart9 : List String :=
  ["cache-control", "content-disposition", "content-md5", "content-type",
   "etag", "last-modified",
   "access-control-allow-methods", "access-control-allow-origin",
   "access-control-allow-headers", "access-control-allow-credentials",
   "access-control-max-age", "access-control-expose-headers"]

/-- `useCache` from `src/unnamed/part_009`: whether the in-flight request may
be answered from (and populate) the cache.  The argument is the header-key
set attached to the request context (`none` when the context carries no
headers, in which case the type assertion fails and caching is allowed). -/
def useCache : Option (List String) → Bool
  | none => true
  | some keys =>
      !(keys.any fun k => k == "Range" || k == "Origin" || goStartsWith k "If-")

/-- `fetchObject` from `src/unnamed/part_009`: GET of
`{gcsBase}/{path.Join(bucket, obj)}`; an error status (above 399) takes
precedence over body-read i/o errors; otherwise a body-read error is
returned; otherwise the object with whitelisted headers and the body. -/
def fetchObject (resp : String → Option Response) (bucket obj : String) :
    Except Err Object :=
  match resp (gcsBase ++ "/" ++ goJoin bucket obj) with
  | none => .error (.other "transport")
  | some r =>
    if r.status > 399 then .error (.fetch ⟨fmtErrMsg r, r.status⟩)
    else
      match r.readErr with
      | some e => .error (.other e)
      | none => .ok ⟨projectHeaders objectHeadersPart9 r.headers, r.body⟩

/-- `putObjectCache` from `src/unnamed/part_009` as a store update. -/
def putObjectCache (cache : List (String × Object)) (key : String)
    (o : Object) : List (String × Object) :=
  (key, o) :: cache

/-- `getObject` from `src/unnamed/part_009`: reads the cache only when
`useCache` allows it, performs the live fetch otherwise or on a miss, and
writes the fetched object back only when `useCache` allows it.  Returns the
result together with the updated cache contents. -/
def getObject (resp : String → Option Response)
    (cache : List (String × Object)) (hdrs : Option (List String))
    (bucket obj : String) :
    Except Err Object × List (String × Object) :=
  let key := goJoin bucket obj
  let useC := useCache hdrs
  match (if useC then cache.lookup key else none) with
  | some o => (.ok o, cache)
  | none =>
    match fetchObject resp bucket obj with
    | .error e => (.error e, cache)
    | .ok o => (.ok o, if useC then putObjectCache cache key o else cache)

/-! ## Concrete fixtures used by witnesses and counterexamples -/

/-- A plain 404 backend response. -/
def respNotFound : Response := ⟨404, "404 Not Found", [], "", none⟩

/-- A plain 400 backend response. -/
def respBadRequest : Response := ⟨400, "400 Bad Request", [], "", none⟩

/-- A 200 HEAD/GET response with a content-type header. -/
def respOkHtml : Response := ⟨200, "200 OK", [("Content-Type", "text/html")], "", none⟩

/-- A 304 Not Modified response. -/
def respNotModified : Response := ⟨304, "304 Not Modified", [], "", none⟩

/-- World for the uncleaned-name scenario: GET of `b/a/b` is 404, HEAD of
`b/a/b/index.html` is 200 (the name `a//b` cleans to `a/b` in the URLs). -/
def worldDoubleSlash : World :=
  { cache := []
    getResp := fun u =>
      if u = "https://storage.googleapis.com/b/a/b" then some respNotFound else none
    headResp := fun u =>
      if u = "https://storage.googleapis.com/b/a/b/index.html" then some respOkHtml else none }

/-- World where the backend answers 400 for `bucket/missing.txt`. -/
def worldBadRequest : World :=
  { cache := []
    getResp := fun u =>
      if u = "https://storage.googleapis.com/bucket/missing.txt" then some respBadRequest
      else none
    headResp := fun _ => none }

/-- World where `b/dir/index.html` exists with body `"hello"`. -/
def worldDirSlash : World :=
  { cache := []
    getResp := fun u =>
      if u = "https://storage.googleapis.com/b/dir/index.html"
      then some { respOkHtml with body := "hello" } else none
    headResp := fun _ => none }

/-- A plain 500 backend response. -/
def respServerError : Response := ⟨500, "500 Internal Server Error", [], "", none⟩

/-- World where GET of `b/dir` is 404 and HEAD of `b/dir/index.html` is 500. -/
def worldStatFails : World :=
  { cache := []
    getResp := fun u =>
      if u = "https://storage.googleapis.com/b/dir" then some respNotFound else none
    headResp := fun u =>
      if u = "https://storage.googleapis.com/b/dir/index.html" then some respServerError
      else none }

/-- World where GET of `b/dir` is 404 but HEAD of `b/dir/index.html` is 200. -/
def worldDirNoSlash : World :=
  { cache := []
    getResp := fun u =>
      if u = "https://storage.googleapis.com/b/dir" then some respNotFound else none
    headResp := fun u =>
      if u = "https://storage.googleapis.com/b/dir/index.html" then some respOkHtml else none }

/-! ## Helper lemmas -/

theorem toList_append (a b : String) : (a ++ b).toList = a.toList ++ b.toList := by
  cases a; cases b; rfl

theorem hasSuffix_append (a b : String) : hasSuffix (a ++ b) b = true := by
  simp only [hasSuffix, toList_append, decide_eq_true_eq]
  exact List.suffix_append a.toList b.toList

theorem checkStatOf_index (s : Storage) (name : String) :
    checkStatOf s (name ++ s.Index) = false := by
  simp [checkStatOf, hasSuffix_append]

/-! ## Claim theorems -/

/-- C6: for every bucket and every request path that is empty or ends in
`/`, `OpenFile` returns exactly what the plain cache-then-fetch `Open` of
`path ++ Index` returns, for every outcome of the speculative stat (which is
therefore never consulted, and no redirect is synthesized). -/
theorem openFile_dir_equiv_open_index (s : Storage) (w : World)
    (statTimedOut : Bool) (bucket name : String)
    (h : name = "" ∨ hasSuffix name "/" = true) :
    s.OpenFile w statTimedOut bucket name = s.Open w bucket (name ++ s.Index) := by
  have hn : normalizeName s name = name ++ s.Index := if_pos h
  simp only [Storage.OpenFile, hn, checkStatOf_index]
  cases hO : s.Open w bucket (name ++ s.Index) <;> simp

/-- C6 witness: the `dir/` scenario — the result is the index object itself
(body `"hello"`), identical to opening `dir/index.html` directly. -/
theorem openFile_dir_equiv_open_index_witness :
    DefaultStorage.OpenFile worldDirSlash true "b" "dir/"
      = DefaultStorage.Open worldDirSlash "b" ("dir/" ++ DefaultStorage.Index) :=
  openFile_dir_equiv_open_index DefaultStorage worldDirSlash true "b" "dir/"
    (Or.inr (by decide))

/-- C2: if the primary open fails with a `FetchError` whose code is neither
404 nor 403, `OpenFile` returns exactly that error, whatever the outcome of
the speculative stat. -/
theorem openFile_propagates_non404_errors (s : Storage) (w : World)
    (statTimedOut : Bool) (bucket name : String) (fe : FetchError)
    (hOpen : s.Open w bucket (normalizeName s name) = .error (.fetch fe))
    (h404 : fe.Code ≠ 404) (h403 : fe.Code ≠ 403) :
    s.OpenFile w statTimedOut bucket name = .error (.fetch fe) := by
  have he : earlyReturn (.fetch fe) = true := by
    simp [earlyReturn, h404, h403]
  simp only [Storage.OpenFile, hOpen]
  cases hcs : checkStatOf s (normalizeName s name) <;>
    simp [hcs, dirFallback, he]

/-- C2 witness: a backend answering 400 for `bucket/missing.txt` surfaces as
a `FetchError` with code 400, never 404. -/
theorem openFile_propagates_non404_errors_witness :
    DefaultStorage.OpenFile worldBadRequest false "bucket" "missing.txt"
      = .error (.fetch ⟨"400 Bad Request: ", 400⟩) :=
  openFile_propagates_non404_errors DefaultStorage worldBadRequest false
    "bucket" "missing.txt" ⟨"400 Bad Request: ", 400⟩ (by decide) (by decide) (by decide)

/-- C7: when the primary open fails with a `FetchError` of code 404 or 403
and the directory fallback is attempted, `OpenFile` reports the original
primary error both when the bounded wait for the stat times out and when the
stat completes with any error of its own. -/
theorem openFile_fallback_returns_original_error (s : Storage) (w : World)
    (bucket name : String) (fe : FetchError)
    (hcs : checkStatOf s (normalizeName s name) = true)
    (hOpen : s.Open w bucket (normalizeName s name) = .error (.fetch fe))
    (hcode : fe.Code = 404 ∨ fe.Code = 403) :
    s.OpenFile w true bucket name = .error (.fetch fe) ∧
    (∀ e, s.Stat w bucket (goJoin (normalizeName s name) s.Index) = .error e →
      s.OpenFile w false bucket name = .error (.fetch fe)) := by
  have he : earlyReturn (.fetch fe) = false := by
    rcases hcode with h | h <;> simp [earlyReturn, h]
  constructor
  · simp [Storage.OpenFile, hOpen, hcs, dirFallback, he]
  · intro e hStat
    simp [Storage.OpenFile, hOpen, hcs, dirFallback, he, hStat]

/-- C7 witness: with `b/dir` missing (404) and the speculative stat answering
500, the original 404 is reported both on timeout and on stat failure. -/
theorem openFile_fallback_returns_original_error_witness :
    DefaultStorage.OpenFile worldStatFails true "b" "dir"
      = .error (.fetch ⟨"404 Not Found: ", 404⟩) ∧
    DefaultStorage.OpenFile worldStatFails false "b" "dir"
      = .error (.fetch ⟨"404 Not Found: ", 404⟩) := by
  have h := openFile_fallback_returns_original_error DefaultStorage worldStatFails
    "b" "dir" ⟨"404 Not Found: ", 404⟩ (by decide) (by decide) (Or.inl rfl)
  exact ⟨h.1, h.2 (.fetch ⟨"500 Internal Server Error: ", 500⟩) (by decide)⟩

/-- C1 counterexample: for the name `a//b` — which does not end in `/` and
whose final segment has no extension — the direct open 404s and the stat of
the joined index succeeds with no redirect of its own, yet the synthesized
redirect target is the cleaned `/a/b/` (from `path.Join("/", name) + "/"`),
not the literal `/` + name + `/` = `/a//b/` the claim asserts. -/
theorem openFile_literal_target_counterexample :
    hasSuffix "a//b" "/" = false ∧ goExt "a//b" = "" ∧
    DefaultStorage.Open worldDoubleSlash "b" "a//b"
      = .error (.fetch ⟨"404 Not Found: ", 404⟩) ∧
    DefaultStorage.Stat worldDoubleSlash "b" (goJoin "a//b" DefaultStorage.Index)
      = .ok ⟨[("content-type", "text/html")], ""⟩ ∧
    Object.Redirect ⟨[("content-type", "text/html")], ""⟩ = "" ∧
    DefaultStorage.OpenFile worldDoubleSlash false "b" "a//b"
      = .ok (mkDirRedirect "a//b") ∧
    (mkDirRedirect "a//b").Redirect = "/a/b/" ∧
    "/a/b/" ≠ "/" ++ "a//b" ++ "/" := by
  refine ⟨by decide, by decide, by decide, by decide, by decide, by decide,
    by decide, by decide⟩

/-- C1 (amended): under the claim's premises the resolver returns, without
error, the synthesized redirect object whose redirect-target metadata is
`path.Join("/", name) + "/"` — which equals `"/" + name + "/"` whenever
`name` is already a cleaned path — and whose `RedirectCode` is 301. -/
theorem openFile_synthesizes_dir_redirect (s : Storage) (w : World)
    (bucket name : String) (fe : FetchError) (so : Object)
    (hname : ¬(name = "" ∨ hasSuffix name "/" = true))
    (hidx : hasSuffix name s.Index = false)
    (hext : goExt name = "")
    (hOpen : s.Open w bucket name = .error (.fetch fe))
    (hcode : fe.Code = 404)
    (hStat : s.Stat w bucket (goJoin name s.Index) = .ok so)
    (hnored : so.Redirect = "") :
    s.OpenFile w false bucket name = .ok (mkDirRedirect name) ∧
    (mkDirRedirect name).Redirect = goJoin "/" name ++ "/" ∧
    (mkDirRedirect name).RedirectCode = 301 ∧
    (goJoin "/" name = "/" ++ name →
      (mkDirRedirect name).Redirect = "/" ++ name ++ "/") := by
  have hn : normalizeName s name = name := if_neg hname
  have hcs : checkStatOf s name = true := by
    simp [checkStatOf, hidx, hext]
  have he : earlyReturn (.fetch fe) = false := by simp [earlyReturn, hcode]
  have hred : (mkDirRedirect name).Redirect = goJoin "/" name ++ "/" := by
    simp [mkDirRedirect, Object.Redirect, metaGet, List.lookup]
  refine ⟨?_, hred, ?_, fun hclean => by rw [hred, hclean]⟩
  · simp [Storage.OpenFile, hn, hOpen, hcs, dirFallback, he, hStat, hnored]
  · have hlook : (mkDirRedirect name).Meta.lookup metaRedirectCode = none := by
      simp [mkDirRedirect, List.lookup,
        show (metaRedirectCode == metaRedirect) = false from by decide]
    have hempty : goAtoi "" = none := rfl
    simp [Object.RedirectCode, metaGet, hlook, hempty]

/-- C1 witness: the `/dir` (no trailing slash) scenario — direct open 404s,
the index stat succeeds, and the result is the `/dir/` redirect with
code 301. -/
theorem openFile_synthesizes_dir_redirect_witness :
    DefaultStorage.OpenFile worldDirNoSlash false "b" "dir"
      = .ok (mkDirRedirect "dir") ∧
    (mkDirRedirect "dir").Redirect = "/" ++ "dir" ++ "/" ∧
    (mkDirRedirect "dir").RedirectCode = 301 := by
  have h := openFile_synthesizes_dir_redirect DefaultStorage worldDirNoSlash
    "b" "dir" ⟨"404 Not Found: ", 404⟩ ⟨[("content-type", "text/html")], ""⟩
    (by decide) (by decide) (by decide) (by decide) rfl (by decide) (by decide)
  exact ⟨h.1, h.2.2.2 (by decide), h.2.2.1⟩

/-- C3 counterexample: at status 304 — which is not greater than 399 — the
stat path returns a `FetchError` carrying 304 while the fetch path returns
an `Object`, refuting "stat returns a FetchError exactly when the status is
greater than 399 and an Object for every status of at most 399". -/
theorem stat_differs_from_fetch_counterexample :
    respNotModified.status ≤ 399 ∧
    statResp respNotModified = .error (.fetch ⟨"304 Not Modified: ", 304⟩) ∧
    fetchResp respNotModified = .ok ⟨[], ""⟩ := by
  refine ⟨by decide, by decide, by decide⟩

/-- C3 (amended): the stat path returns a `FetchError` carrying the backend
status exactly when the status differs from 200 (strictly more often than
fetch, whose error condition is status above 399), and returns a body-less
`Object` with the whitelisted headers projected into `Meta` exactly at
status 200; fetch errors exactly above 399 and otherwise returns the
`Object` with projected headers and the body. -/
theorem stat_fetch_error_conditions (r : Response) :
    (r.status ≠ 200 → statResp r = .error (.fetch ⟨fmtErrMsg r, r.status⟩)) ∧
    (r.status = 200 → statResp r = .ok ⟨projectHeaders objectHeaders r.headers, ""⟩) ∧
    (399 < r.status → fetchResp r = .error (.fetch ⟨fmtErrMsg r, r.status⟩)) ∧
    (r.status ≤ 399 → fetchResp r = .ok ⟨projectHeaders objectHeaders r.headers, r.body⟩) := by
  refine ⟨fun h => ?_, fun h => ?_, fun h => ?_, fun h => ?_⟩
  · simp [statResp, h]
  · simp [statResp, h]
  · simp [fetchResp, h]
  · simp [fetchResp, Nat.not_lt.mpr h]

/-- C3 witness: the 304 response taken through both clauses. -/
theorem stat_fetch_error_conditions_witness :
    statResp respNotModified
      = .error (.fetch ⟨fmtErrMsg respNotModified, respNotModified.status⟩) ∧
    fetchResp respNotModified
      = .ok ⟨projectHeaders objectHeaders respNotModified.headers, respNotModified.body⟩ :=
  ⟨(stat_fetch_error_conditions respNotModified).1 (by decide),
   (stat_fetch_error_conditions respNotModified).2.2.2 (by decide)⟩

/-- C4 counterexample: for the same bucket and name, a request whose
Accept-Encoding accepts gzip is cached under the very same key as a request
without it — the key derivation ignores the request headers entirely, so the
claimed difference does not exist. -/
theorem requestCacheKey_gzip_counterexample :
    requestCacheKey DefaultStorage [("Accept-Encoding", "gzip")] "bucket" "file.json"
      = requestCacheKey DefaultStorage [] "bucket" "file.json" ∧
    requestCacheKey DefaultStorage [] "bucket" "file.json"
      = "https://storage.googleapis.com/bucket/file.json" := by
  refine ⟨rfl, by decide⟩

/-- C4 (amended): the cache-key derivation is deterministic and depends only
on the Storage base, the bucket and the name — the request's headers (gzip
acceptance included) never change the key, and no `:gzip` suffix exists. -/
theorem requestCacheKey_header_independent (s : Storage)
    (h₁ h₂ : List (String × String)) (bucket name : String) :
    requestCacheKey s h₁ bucket name = requestCacheKey s h₂ bucket name ∧
    requestCacheKey s h₁ bucket name = s.CacheKey bucket name :=
  ⟨rfl, rfl⟩

/-- C5: a request carrying a `Range` header, an `Origin` header, or any
header whose name begins with `If-` makes `useCache` false, and
`getObject` for such a request neither reads the cache (whatever it holds)
nor writes the fetched object into it: it returns exactly the live-fetch
result with the cache unchanged. -/
theorem useCache_false_bypasses_cache (resp : String → Option Response)
    (cache : List (String × Object)) (keys : List String) (bucket obj : String)
    (k : String) (hk : k ∈ keys)
    (hcond : k = "Range" ∨ k = "Origin" ∨ goStartsWith k "If-" = true) :
    useCache (some keys) = false ∧
    getObject resp cache (some keys) bucket obj = (fetchObject resp bucket obj, cache) := by
  have hu : useCache (some keys) = false := by
    simp only [useCache, Bool.not_eq_false']
    refine List.any_eq_true.mpr ⟨k, hk, ?_⟩
    rcases hcond with h | h | h <;> simp [h]
  refine ⟨hu, ?_⟩
  cases hF : fetchObject resp bucket obj <;> simp [getObject, hu, hF]

/-- C5 witness: a ranged request against a warm cache is neither served from
it nor written back to it. -/
theorem useCache_false_bypasses_cache_witness :
    useCache (some ["Range", "User-Agent"]) = false ∧
    getObject (fun _ => none) [("b/x", ⟨[], "cached"⟩)] (some ["Range", "User-Agent"]) "b" "x"
      = (fetchObject (fun _ => none) "b" "x", [("b/x", ⟨[], "cached"⟩)]) :=
  useCache_false_bypasses_cache (fun _ => none) [("b/x", ⟨[], "cached"⟩)]
    ["Range", "User-Agent"] "b" "x" "Range" (by decide) (Or.inl rfl)

/-- C8: purging an object that the cache does not hold succeeds — the
cache-miss result of the underlying delete is mapped to no error — while any
delete failure other than a cache miss is returned to the caller
unchanged. -/
theorem purgeCache_miss_is_success (s : Storage) (cache : List (String × Object))
    (bucket name : String) :
    (cache.lookup (s.CacheKey bucket name) = none →
      (s.PurgeCache cache bucket name).2 = none) ∧
    (∀ e : Option MemcacheError, e ≠ some .cacheMiss → purgeCache e = e) := by
  constructor
  · intro h
    simp [Storage.PurgeCache, memcacheDelete, h, purgeCache]
  · intro e he
    simp [purgeCache, he]

/-- C8 witness: purging a never-cached object reports success; a server-side
delete failure is passed through. -/
theorem purgeCache_miss_is_success_witness :
    (DefaultStorage.PurgeCache [] "b" "never-cached.txt").2 = none ∧
    purgeCache (some (.serverError "boom")) = some (.serverError "boom") :=
  ⟨(purgeCache_miss_is_success DefaultStorage [] "b" "never-cached.txt").1 (by decide),
   (purgeCache_miss_is_success DefaultStorage [] "b" "never-cached.txt").2
     (some (.serverError "boom")) (by decide)⟩

/-- C10: `RedirectCode` returns the parsed decimal value of the
redirect-code metadata when `strconv.Atoi` accepts it, and 301 both when the
metadata entry is absent and when its value does not parse. -/
theorem redirectCode_parses_or_defaults (o : Object) :
    (o.Meta.lookup metaRedirectCode = none → o.RedirectCode = 301) ∧
    (∀ s v, o.Meta.lookup metaRedirectCode = some s → goAtoi s = some v →
      o.RedirectCode = v) ∧
    (∀ s, o.Meta.lookup metaRedirectCode = some s → goAtoi s = none →
      o.RedirectCode = 301) := by
  have hempty : goAtoi "" = none := rfl
  refine ⟨fun h => ?_, fun s v hs hv => ?_, fun s hs hv => ?_⟩
  · simp [Object.RedirectCode, metaGet, h, hempty]
  · simp [Object.RedirectCode, metaGet, hs, hv]
  · simp [Object.RedirectCode, metaGet, hs, hv]

/-- C10 witness: the `TestObjectRedirect` vectors — `"333"` parses to 333,
`"invalid"` and an absent entry both default to 301. -/
theorem redirectCode_parses_or_defaults_witness :
    Object.RedirectCode ⟨[(metaRedirectCode, "333")], ""⟩ = 333 ∧
    Object.RedirectCode ⟨[(metaRedirectCode, "invalid")], ""⟩ = 301 ∧
    Object.RedirectCode ⟨[(metaRedirect, "/new/path")], ""⟩ = 301 :=
  ⟨(redirectCode_parses_or_defaults ⟨[(metaRedirectCode, "333")], ""⟩).2.1
      "333" 333 (by decide) (by decide),
   (redirectCode_parses_or_defaults ⟨[(metaRedirectCode, "invalid")], ""⟩).2.2
      "invalid" (by decide) (by decide),
   (redirectCode_parses_or_defaults ⟨[(metaRedirect, "/new/path")], ""⟩).1 (by decide)⟩

theorem foldl_bufWrite_ge_max (chunks : List (List Char)) :
    ∀ buf : List Char,
      cacheItemMax ≤ buf.length + (chunks.map List.length).sum →
      cacheItemMax ≤ (chunks.foldl bufWrite buf).length := by
  induction chunks with
  | nil => intro buf h; simpa using h
  | cons c cs ih =>
    intro buf h
    simp only [List.map_cons, List.sum_cons] at h
    simp only [List.foldl_cons]
    apply ih
    by_cases hc : 0 < c.length ∧ buf.length < cacheItemMax
    · rw [show bufWrite buf c = buf ++ c from by unfold bufWrite; rw [if_pos hc]]
      simp only [List.length_append]
      omega
    · rw [show bufWrite buf c = buf from by unfold bufWrite; rw [if_neg hc]]
      rcases Nat.lt_or_ge buf.length cacheItemMax with hlt | hge
      · have hc0 : c.length = 0 := by
          by_contra hne
          exact hc ⟨Nat.pos_of_ne_zero hne, hlt⟩
        omega
      · omega

theorem foldl_bufWrite_small (chunks : List (List Char)) :
    ∀ buf : List Char,
      (chunks.foldl bufWrite buf).length < cacheItemMax →
      chunks.foldl bufWrite buf = buf ++ chunks.flatten := by
  induction chunks with
  | nil => intro buf _; simp
  | cons c cs ih =>
    intro buf h
    simp only [List.foldl_cons] at h ⊢
    by_cases hc : 0 < c.length ∧ buf.length < cacheItemMax
    · rw [show bufWrite buf c = buf ++ c from by unfold bufWrite; rw [if_pos hc]] at h ⊢
      rw [ih _ h]
      simp
    · rw [show bufWrite buf c = buf from by unfold bufWrite; rw [if_neg hc]] at h ⊢
      rcases Nat.lt_or_ge buf.length cacheItemMax with hlt | hge
      · have hc0 : c = [] := by
          by_contra hne
          exact hc ⟨List.length_pos.mpr hne, hlt⟩
        subst hc0
        rw [ih _ h]
        simp
      · exfalso
        have := foldl_bufWrite_ge_max cs buf (by omega)
        omega

/-- C9: an object whose body reaches or exceeds the 1 MiB cache item ceiling
is never written to the cache by `objectBuf.Read` at EOF, and whenever the
write does happen the cached body is the full body and is strictly smaller
than 1 MiB (`cacheItemMax = 2 ^ 20`). -/
theorem objectBuf_cache_ceiling (chunks : List (List Char)) :
    (cacheItemMax ≤ (chunks.map List.length).sum → objectBufCaches chunks = false) ∧
    (objectBufCaches chunks = true →
      objectBufRun chunks = chunks.flatten ∧
      (objectBufRun chunks).length < cacheItemMax) ∧
    cacheItemMax = 2 ^ 20 := by
  refine ⟨fun h => ?_, fun h => ?_, by decide⟩
  · have hge := foldl_bufWrite_ge_max chunks [] (by simpa using h)
    simp only [objectBufCaches, objectBufRun, decide_eq_false_iff_not, Nat.not_lt]
    exact hge
  · simp only [objectBufCaches, decide_eq_true_eq] at h
    exact ⟨foldl_bufWrite_small chunks [] h, h⟩

/-- C9 witness: a single 1 MiB chunk is not cached; a one-byte body is
cached in full. -/
theorem objectBuf_cache_ceiling_witness :
    objectBufCaches [List.replicate (2 ^ 20) 'a'] = false ∧
    objectBufCaches [['a']] = true ∧
    objectBufRun [['a']] = ['a'] :=
  ⟨(objectBuf_cache_ceiling [List.replicate (2 ^ 20) 'a']).1
      (by rw [List.map_cons, List.map_nil, List.sum_cons, List.sum_nil,
              List.length_replicate]
          norm_num [cacheItemMax, Nat.shiftLeft_eq]),
   by decide,
   ((objectBuf_cache_ceiling [['a']]).2.1 (by decide)).1⟩

end Weasel
